import Mathlib

/-!
Shallow embedding of `src/sgmvfi/Trainer_x4k.py` (the `Model` training /
inference wrapper of SGM-VFI).

Tensors are modelled over exact rationals:
* a `Grid` is a H×W matrix (`List (List ℚ)`),
* a `Sample` is one C×H×W image / flow / mask tensor (`List Grid`),
* a `Batch` is a B×C×H×W tensor (`List Sample`).

The neural network itself is an external collaborator (it lives in `model/`,
outside this file's source): it is modelled as an opaque structure `SNet`
of per-sample functions, lifted to batches by `List.map` — i.e. the network
is assumed to process batch elements independently, which is what the
spec's flip-TTA equivalence presupposes (eval-mode convolutional networks
have no cross-batch interaction).
-/

namespace SGMVFI

abbrev Grid : Type := List (List ℚ)

abbrev Sample : Type := List Grid

abbrev Batch : Type := List Sample

/-- `t.flip(h).flip(w)` on the two spatial axes of one channel:
reverse the order of the rows and reverse each row. -/
def gridFlip (g : Grid) : Grid :=
  g.reverse.map List.reverse

/-- Spatial flip of one sample: `x.flip(1).flip(2)` on a C×H×W tensor
(as applied to `preds[1]` in the fast-TTA paths). -/
def sampleFlip (s : Sample) : Sample :=
  s.map gridFlip

/-- Spatial flip of a batch: `x.flip(2).flip(3)` on a B×C×H×W tensor. -/
def batchFlip (b : Batch) : Batch :=
  b.map sampleFlip

/-- Elementwise combination of two grids. -/
def gridZip (f : ℚ → ℚ → ℚ) (a b : Grid) : Grid :=
  List.zipWith (List.zipWith f) a b

/-- Elementwise combination of two samples. -/
def sampleZip (f : ℚ → ℚ → ℚ) (a b : Sample) : Sample :=
  List.zipWith (gridZip f) a b

/-- `(a + b) / 2` on samples, the TTA averaging arithmetic. -/
def sampleAvg (a b : Sample) : Sample :=
  sampleZip (fun x y => (x + y) / 2) a b

/-- `(a + b) / 2` on batches. -/
def batchAvg (a b : Batch) : Batch :=
  List.zipWith sampleAvg a b

/-- `torch.cat((img0, img1), 1)`: concatenation along the channel axis. -/
def catChannels (img0 img1 : Batch) : Batch :=
  List.zipWith (· ++ ·) img0 img1

/-- Scalar multiplication of a sample (`flow * (1 / down_scale)`). -/
def sampleScale (c : ℚ) (s : Sample) : Sample :=
  s.map (fun g => g.map (fun row => row.map (fun x => c * x)))

/-- Scalar multiplication of a batch. -/
def batchScale (c : ℚ) (b : Batch) : Batch :=
  b.map (sampleScale c)

/-- The opaque network interface consumed by the wrapper, per sample:
`forward` returns `(flow, mask, merged, pred, flow_matching_s)`;
`calculate_flow` returns `(flow, mask)`; `coraseWarp_and_Refine`
maps `(imgs, flow, mask)` to the refined prediction.  (The misspelling
`coraseWarp_and_Refine` is the source's.) -/
structure SNet where
  fwd : Sample → ℚ → Sample × Sample × List Sample × Sample × Sample
  calculate_flow : Sample → ℚ → Sample × Sample
  coraseWarp_and_Refine : Sample → Sample → Sample → Sample

/-- The `pred` component of the network's forward pass on one sample. -/
def predOf (net : SNet) (t : ℚ) (s : Sample) : Sample :=
  (net.fwd s t).2.2.2.1

/-- `Model.inference(img0, img1, TTA, timestep, fast_TTA)`
(`Trainer_x4k.py`, lines 120–137).  The batched forward call is the
per-sample forward mapped over the batch.  Indexing `preds[0]` / `preds[1]`
on a batch of fewer than two elements is a Python runtime error, modelled
as `none`. -/
def inference (net : SNet) (img0 img1 : Batch) (TTA : Bool) (t : ℚ)
    (fastTTA : Bool) : Option Batch :=
  let imgs := catChannels img0 img1
  if fastTTA then
    let imgs' := batchFlip imgs
    let inputs := imgs ++ imgs'
    let preds := inputs.map (predOf net t)
    match preds with
    | p0 :: p1 :: _ => some [sampleAvg p0 (sampleFlip p1)]
    | _ => none
  else
    let pred := imgs.map (predOf net t)
    if TTA = false then
      some pred
    else
      let pred2 := (batchFlip imgs).map (predOf net t)
      some (batchAvg pred (batchFlip pred2))

/-! ### Bilinear resampling (`F.interpolate(..., mode="bilinear", align_corners=False)`)

`torch.nn.functional.interpolate` with a scale factor `s` produces an output
of `⌊n·s⌋` positions along each spatial axis; output position `i` samples the
input at source coordinate `(i + 1/2)/s - 1/2`, clamped to `[0, n-1]`, by
linear interpolation between the two neighbouring input positions.  The
resize is separable: rows are resampled first, then columns of the result. -/

/-- Linear interpolation of a 1-dimensional signal at source coordinate `x`
(clamped to the valid index range, `align_corners=False` convention). -/
def lin1D (v : List ℚ) (x : ℚ) : ℚ :=
  let n := v.length
  let xc := max 0 (min x ((n : ℚ) - 1))
  let x0 := (⌊xc⌋).toNat
  let x1 := min (x0 + 1) (n - 1)
  let w := xc - (x0 : ℚ)
  (1 - w) * v.getD x0 0 + w * v.getD x1 0

/-- Resample a 1-dimensional signal by scale factor `s`. -/
def resize1D (s : ℚ) (v : List ℚ) : List ℚ :=
  (List.range ((⌊(v.length : ℚ) * s⌋).toNat)).map fun (i : Nat) =>
    lin1D v (((i : ℚ) + 1/2) / s - 1/2)

/-- Pointwise linear blend of two rows with weight `w` on the second. -/
def rowLerp (w : ℚ) (a b : List ℚ) : List ℚ :=
  List.zipWith (fun x y => (1 - w) * x + w * y) a b

/-- Resample a grid vertically (across rows) by scale factor `s`. -/
def resizeRows (s : ℚ) (g : Grid) : Grid :=
  (List.range ((⌊(g.length : ℚ) * s⌋).toNat)).map fun (i : Nat) =>
    let x : ℚ := ((i : ℚ) + 1/2) / s - 1/2
    let xc := max 0 (min x ((g.length : ℚ) - 1))
    let x0 := (⌊xc⌋).toNat
    let x1 := min (x0 + 1) (g.length - 1)
    let w := xc - (x0 : ℚ)
    rowLerp w (g.getD x0 []) (g.getD x1 [])

/-- 2-dimensional bilinear resize of one channel: horizontal pass then
vertical pass. -/
def interpGrid (s : ℚ) (g : Grid) : Grid :=
  resizeRows s (g.map (resize1D s))

/-- `F.interpolate` applied to one C×H×W sample. -/
def interpSample (s : ℚ) (smp : Sample) : Sample :=
  smp.map (interpGrid s)

/-- `F.interpolate` applied to a batch. -/
def interpBatch (s : ℚ) (b : Batch) : Batch :=
  b.map (interpSample s)

/-- A grid is rectangular: all rows have the same length. -/
def IsRect (g : Grid) : Prop :=
  ∀ r ∈ g, ∀ r' ∈ g, r.length = r'.length

/-- All channel grids of a sample are rectangular. -/
def SampleRect (s : Sample) : Prop :=
  ∀ g ∈ s, IsRect g

instance decIsRect (g : Grid) : Decidable (IsRect g) :=
  inferInstanceAs (Decidable (∀ r ∈ g, ∀ r' ∈ g, r.length = r'.length))

instance decSampleRect (s : Sample) : Decidable (SampleRect s) :=
  inferInstanceAs (Decidable (∀ g ∈ s, IsRect g))

/-! ### `hr_inference` (`Trainer_x4k.py`, lines 89–118) -/

/-- `self.net.calculate_flow` lifted to a batch. -/
def calcFlowB (net : SNet) (b : Batch) (t : ℚ) : Batch × Batch :=
  (b.map (fun s => (net.calculate_flow s t).1),
   b.map (fun s => (net.calculate_flow s t).2))

/-- Pointwise combination of three batches of equal length. -/
def zip3With (f : Sample → Sample → Sample → Sample) : Batch → Batch → Batch → Batch
  | i :: is, a :: as, b :: bs => f i a b :: zip3With f is as bs
  | _, _, _ => []

/-- The inner `infer` closure of `hr_inference` (lines 96–106): downsample,
compute flow and mask, upsample flow (rescaling its magnitude by
`1 / down_scale`) and mask, then warp-and-refine the full-resolution input. -/
def hrInferOne (net : SNet) (down_scale t : ℚ) (imgs : Batch) : Batch :=
  let imgs_down := interpBatch down_scale imgs
  let fm := calcFlowB net imgs_down t
  let flow := batchScale (1 / down_scale) (interpBatch (1 / down_scale) fm.1)
  let mask := interpBatch (1 / down_scale) fm.2
  zip3With net.coraseWarp_and_Refine imgs flow mask

/-- The action of `hrInferOne` on a single batch element (every stage of
the inner `infer` closure acts batch-elementwise). -/
def hrInferSample (net : SNet) (down_scale t : ℚ) (s : Sample) : Sample :=
  net.coraseWarp_and_Refine s
    (sampleScale (1 / down_scale)
      (interpSample (1 / down_scale)
        (net.calculate_flow (interpSample down_scale s) t).1))
    (interpSample (1 / down_scale)
      (net.calculate_flow (interpSample down_scale s) t).2)

/-- `Model.hr_inference(img0, img1, TTA, down_scale, timestep, fast_TTA)`
(lines 89–118), with the same TTA flag structure as `inference`. -/
def hr_inference (net : SNet) (img0 img1 : Batch) (TTA : Bool)
    (down_scale t : ℚ) (fastTTA : Bool) : Option Batch :=
  let imgs := catChannels img0 img1
  if fastTTA then
    let imgs' := batchFlip imgs
    let input := imgs ++ imgs'
    let preds := hrInferOne net down_scale t input
    match preds with
    | p0 :: p1 :: _ => some [sampleAvg p0 (sampleFlip p1)]
    | _ => none
  else
    if TTA = false then
      some (hrInferOne net down_scale t imgs)
    else
      some (batchAvg (hrInferOne net down_scale t imgs)
        (batchFlip (hrInferOne net down_scale t (batchFlip imgs))))

/-- The spec's description of the plain `hr_inference` data flow, written
from the spec's words: downsample the concatenated frame pair by
`downScale` (bilinear, no corner alignment); compute flow and mask on the
downsampled input; upsample the flow back and multiply its magnitude by
`1/downScale`; upsample the mask unchanged in magnitude; feed the
full-resolution original pair with the upsampled flow and mask into the
warp-and-refine stage. -/
def hrSpecPipeline (net : SNet) (downScale t : ℚ) (img0 img1 : Batch) : Batch :=
  let pair := catChannels img0 img1
  let lowRes := interpBatch downScale pair
  let flowMask := calcFlowB net lowRes t
  let upFlow := batchScale (1 / downScale) (interpBatch (1 / downScale) flowMask.1)
  let upMask := interpBatch (1 / downScale) flowMask.2
  zip3With net.coraseWarp_and_Refine pair upFlow upMask

/-- Direct full-resolution inference without the down/up-scale wrapping:
`calculate_flow` on the full-resolution concatenated pair followed by
warp-and-refine. -/
def directInfer (net : SNet) (t : ℚ) (imgs : Batch) : Batch :=
  let fm := calcFlowB net imgs t
  zip3With net.coraseWarp_and_Refine imgs fm.1 fm.2

/-! ### Parameters, checkpoints, loading and freezing
(`Model.__init__`, `load_model`, `save_model`, lines 14–87)

Parameter names and checkpoint keys are modelled as `List Char` (written
via `String.toList`); a state dict is an association list from qualified
name to value.  `load_state_dict(..., strict=False)` updates the values of
the parameters whose names match a checkpoint key and leaves everything
else — including every `requires_grad` flag — untouched, which is the
PyTorch semantics. -/

/-- One named parameter tensor with its `requires_grad` flag (the tensor is
collapsed to a single rational). -/
structure Param where
  name : List Char
  value : ℚ
  requiresGrad : Bool
deriving DecidableEq

/-- A network as a flat list of qualified-named parameters. -/
abbrev NetP : Type := List Param

/-- A state dict: association list from qualified key to value. -/
abbrev SDict (α : Type) : Type := List (List Char × α)

/-- Does `s` start with `pat`? -/
def leadsWith : List Char → List Char → Bool
  | _, [] => true
  | [], _ :: _ => false
  | c :: s, p :: ps => c == p && leadsWith s ps

/-- Python's `pat in s` substring test. -/
def containsSub : List Char → List Char → Bool
  | [], pat => leadsWith [] pat
  | c :: s, pat => leadsWith (c :: s) pat || containsSub s pat

/-- Fuel-indexed worker for `replaceAll`: on each step at least one input
character is consumed, so fuel equal to the input length is enough.  Kept
structurally recursive so that proofs can evaluate it. -/
def replaceAllGo : Nat → List Char → List Char → List Char → List Char
  | 0, s, _, _ => s
  | _ + 1, [], _, _ => []
  | fuel + 1, c :: s, pat, rep =>
    if !pat.isEmpty && leadsWith (c :: s) pat then
      rep ++ replaceAllGo fuel (List.drop (pat.length - 1) s) pat rep
    else
      c :: replaceAllGo fuel s pat rep

/-- Python's `s.replace(pat, rep)`: replace every (leftmost,
non-overlapping) occurrence of `pat` in `s` by `rep`. -/
def replaceAll (s pat rep : List Char) : List Char :=
  replaceAllGo s.length s pat rep

/-- `"module."`, the distributed-training namespace marker. -/
def moduleMarker : List Char := ("module.").toList

/-- `"attn_mask"`, an excluded non-portable key fragment. -/
def attnMaskFrag : List Char := ("attn_mask").toList

/-- `"HW"`, an excluded non-portable key fragment. -/
def hwFrag : List Char := ("HW").toList

/-- The `convert` function inside `load_model` (lines 58–63): keep the keys
containing `"module."` and containing neither `"attn_mask"` nor `"HW"`,
and delete the `"module."` marker from each retained key. -/
def convert {α : Type} (param : SDict α) : SDict α :=
  (param.filter (fun kv =>
      containsSub kv.1 moduleMarker
        && !containsSub kv.1 attnMaskFrag
        && !containsSub kv.1 hwFrag)).map
    (fun kv => (replaceAll kv.1 moduleMarker [], kv.2))

/-- `net.load_state_dict(sd, strict=False)`: overwrite the value of every
parameter whose qualified name appears in `sd`; unmatched keys on either
side are silently ignored; `requires_grad` flags are untouched. -/
def load_state_dict (sd : SDict ℚ) (net : NetP) : NetP :=
  net.map fun p =>
    match List.lookup p.name sd with
    | some v => { p with value := v }
    | none => p

/-- `for param in <branch>.parameters(): param.requires_grad = False`:
clear the trainable flag of every parameter of the branch. -/
def setGradFalse (branch : List Char) (net : NetP) : NetP :=
  net.map fun p =>
    if leadsWith p.name branch then { p with requiresGrad := false } else p

/-- Qualified-name marker of the `gmflow` branch. -/
def gmflowMarker : List Char := ("gmflow.").toList

/-- Qualified-name marker of the `feature_bone` branch. -/
def featureBoneMarker : List Char := ("feature_bone.").toList

/-- Qualified-name marker of the `block` branch. -/
def blockMarker : List Char := ("block.").toList

/-- Qualified-name marker of the `unet` branch. -/
def unetMarker : List Char := ("unet.").toList

/-- A parameter name belonging to one of the four frozen branches. -/
def frozenBranch (name : List Char) : Bool :=
  leadsWith name gmflowMarker || leadsWith name featureBoneMarker
    || leadsWith name blockMarker || leadsWith name unetMarker

/-- A persisted checkpoint record (`{epoch, model, optimizer}`; the two
pretrained sources only have their `model` entry consulted). -/
structure Ckpt where
  epoch : Nat
  model : SDict ℚ
  optim : SDict ℚ
deriving DecidableEq

/-- A file system: a set of directories and an association list of files
(later writes shadow earlier ones). -/
structure FS where
  dirs : List (List Char)
  files : List (List Char × Ckpt)
deriving DecidableEq

/-- Python errors surfaced by the wrapper: `torch.load` on a missing file
raises `FileNotFoundError`, a subclass of `OSError` (= `IOError`). -/
inductive PyError where
  | fileNotFound
deriving DecidableEq

/-- `torch.load(path)`: the record at `path`, or `IOError` if absent. -/
def torch_load (fs : FS) (path : List Char) : Except PyError Ckpt :=
  match List.lookup path fs.files with
  | some c => Except.ok c
  | none => Except.error PyError.fileNotFound

/-- `os.makedirs(d, exist_ok=True)`: idempotent directory creation. -/
def mkdirs (fs : FS) (d : List Char) : FS :=
  if fs.dirs.contains d then fs else { fs with dirs := d :: fs.dirs }

/-- `torch.save(record, path)`: write (shadowing any previous record). -/
def writeFile (fs : FS) (path : List Char) (c : Ckpt) : FS :=
  { fs with files := (path, c) :: fs.files }

/-- `f'log/{name}/ckpt'`, the checkpoint directory. -/
def logDir (name : List Char) : List Char :=
  ("log/").toList ++ name ++ ("/ckpt").toList

/-- `f'log/{name}/ckpt/{name}.pkl'`, the primary checkpoint path. -/
def ckptPath (name : List Char) : List Char :=
  ("log/").toList ++ name ++ ("/ckpt/").toList ++ name ++ (".pkl").toList

/-- `f'log/{name}/ckpt/{name}_best.pkl'`, the best-suffixed sibling. -/
def bestPath (name : List Char) : List Char :=
  ("log/").toList ++ name ++ ("/ckpt/").toList ++ name ++ ("_best.pkl").toList

/-- Path of the pretrained GMFlow checkpoint loaded in `__init__`. -/
def gmflowCkptPath : List Char :=
  ("./pretrained/gmflow_sintel-0c07dcb3.pth").toList

/-- `'ours-local'`, the hard-coded local-branch checkpoint name. -/
def oursLocalName : List Char := ("ours-local").toList

/-- `Model.load_model(name, rank)` (lines 57–70): on rank ≤ 0, read
`log/{name}/ckpt/{name}.pkl`, filter and strip its `model` entry with
`convert`, and load it non-strictly; on positive ranks, do nothing.
A missing file propagates as an `IOError`. -/
def load_model (fs : FS) (net : NetP) (name : List Char) (rank : Int) :
    Except PyError NetP :=
  if rank ≤ 0 then
    match torch_load fs (ckptPath name) with
    | Except.ok ckpt => Except.ok (load_state_dict (convert ckpt.model) net)
    | Except.error e => Except.error e
  else
    Except.ok net

/-- `{k: v for k, v in ckpt['model'].items() if k in model_dict}` for the
gmflow sub-module (line 24): keep the checkpoint keys already present in
the gmflow branch's own state dict. -/
def gmflowPartial (net : NetP) (sd : SDict ℚ) : SDict ℚ :=
  sd.filter (fun kv => (net.map (fun p => p.name)).contains (gmflowMarker ++ kv.1))

/-- `Model.__init__` checkpoint phase (lines 20–42): load the pretrained
GMFlow record and assign its key-intersection into the gmflow branch,
freeze gmflow, run `load_model('ours-local', local_rank)`, then freeze
`feature_bone`, `block` and `unet`.  Either missing checkpoint propagates
as an `IOError`. -/
def initModel (fs : FS) (net0 : NetP) (localRank : Int) : Except PyError NetP :=
  match torch_load fs gmflowCkptPath with
  | Except.error e => Except.error e
  | Except.ok ckpt =>
    let partial_dict := gmflowPartial net0 ckpt.model
    let net1 := load_state_dict
      (partial_dict.map (fun kv => (gmflowMarker ++ kv.1, kv.2))) net0
    let net2 := setGradFalse gmflowMarker net1
    match load_model fs net2 oursLocalName localRank with
    | Except.error e => Except.error e
    | Except.ok net3 =>
      let net4 := setGradFalse featureBoneMarker net3
      let net5 := setGradFalse blockMarker net4
      Except.ok (setGradFalse unetMarker net5)

/-- `Model.save_model(rank, epoch, best)` (lines 72–87).  Returns the new
file system together with the trace of `torch.save` calls performed. -/
def save_model (fs : FS) (name : List Char) (netSD optimSD : SDict ℚ)
    (rank : Int) (epoch : Nat) (best : Bool) : FS × List (List Char × Ckpt) :=
  if rank = 0 then
    let fs1 := mkdirs fs (logDir name)
    let rec1 : Ckpt := ⟨epoch, netSD, optimSD⟩
    let fs2 := writeFile fs1 (ckptPath name) rec1
    if best then
      let rec2 : Ckpt := ⟨epoch, netSD, optimSD⟩
      (writeFile fs2 (bestPath name) rec2,
       [(ckptPath name, rec1), (bestPath name, rec2)])
    else
      (fs2, [(ckptPath name, rec1)])
  else
    (fs, [])

/-! ### `Model.update` (lines 139–162) -/

/-- The network and loss interface consumed by `update`: a batched forward
pass, the Laplacian-pyramid loss (a per-sample loss tensor, modelled as a
list of scalars), and the parameter mutation performed by one
`optimG.step()`. -/
structure TrainNet where
  fwd : Batch → ℚ → Batch × Batch × List Batch × Batch × Batch
  lap : Batch → Batch → List ℚ
  stepFn : NetP → NetP

/-- `.mean()` of a loss tensor. -/
def mean (l : List ℚ) : ℚ := l.sum / l.length

/-- Observable actions of one `update` call, in order. -/
inductive Event where
  | setLR (lr : ℚ)
  | modeTrain
  | modeEval
  | forwardGrad
  | forwardNoGrad
  | zeroGrad
  | backward (loss : ℚ)
  | optStep
deriving DecidableEq

/-- Mutable state touched by `update`: the parameters and the optimizer's
learning rate. -/
structure TState where
  params : NetP
  lr : ℚ
deriving DecidableEq

/-- `Model.update(imgs, gt, learning_rate, timestep, training)` (lines
139–162): set the learning rate on every parameter group; switch mode; in
training mode run the forward pass, accumulate the Laplacian loss of the
final prediction plus `0.5 ×` the loss of each intermediate merged
prediction, zero the gradients, backpropagate, take one optimizer step and
return `(pred, loss)`; otherwise run the forward pass under `no_grad` and
return `(pred, 0)`. -/
def update (net : TrainNet) (st : TState) (imgs gt : Batch)
    (learning_rate t : ℚ) (training : Bool) :
    (Batch × ℚ) × TState × List Event :=
  let st1 : TState := { st with lr := learning_rate }
  if training then
    let out := net.fwd imgs t
    let pred := out.2.2.2.1
    let merged := out.2.2.1
    let loss_l1 := merged.foldl
      (fun acc merge => acc + mean (net.lap merge gt) * (1/2))
      (mean (net.lap pred gt))
    ((pred, loss_l1),
     { st1 with params := net.stepFn st1.params },
     [Event.setLR learning_rate, Event.modeTrain, Event.forwardGrad,
      Event.zeroGrad, Event.backward loss_l1, Event.optStep])
  else
    let out := net.fwd imgs t
    ((out.2.2.2.1, 0), st1,
     [Event.setLR learning_rate, Event.modeEval, Event.forwardNoGrad])

/-! ### Concrete instances used by witnesses and counterexamples -/

/-- A network whose per-sample prediction is the identity and whose flow /
mask / refinement stages are trivially defined; used to instantiate
universally quantified statements at a concrete point. -/
def idNet : SNet where
  fwd := fun s _ => ([], [], [], s, [])
  calculate_flow := fun s _ => (s, s)
  coraseWarp_and_Refine := fun s _ _ => s

/-- A 1-channel 1×1 sample of value 0. -/
def smp0 : Sample := [[[0]]]

/-- A 1-channel 1×1 sample of value 2. -/
def smp2 : Sample := [[[2]]]

/-- A 1-channel 2×2 rectangular sample. -/
def smpR : Sample := [[[1, 2], [3, 4]]]

/-- A tiny initial network: one parameter per frozen branch plus one
trainable parameter, all flags initially true. -/
def net0W : NetP :=
  [⟨("gmflow.a").toList, 0, true⟩,
   ⟨("feature_bone.b").toList, 0, true⟩,
   ⟨("block.c").toList, 0, true⟩,
   ⟨("unet.d").toList, 0, true⟩,
   ⟨("refine.e").toList, 0, true⟩]

/-- A file system holding both pretrained records consumed at
construction. -/
def fsW : FS where
  dirs := []
  files :=
    [(gmflowCkptPath, ⟨0, [(("a").toList, 5)], []⟩),
     (ckptPath oursLocalName, ⟨0, [(("module.feature_bone.b").toList, 7)], []⟩)]

/-- The network produced by `initModel fsW net0W 0` (both pretrained values
assigned, all four branch parameters frozen, the refine parameter still
trainable). -/
def wNet1 : NetP :=
  [⟨("gmflow.a").toList, 5, false⟩,
   ⟨("feature_bone.b").toList, 7, false⟩,
   ⟨("block.c").toList, 0, false⟩,
   ⟨("unet.d").toList, 0, false⟩,
   ⟨("refine.e").toList, 0, true⟩]

end SGMVFI

namespace SGMVFI

/-! ### Helper lemmas -/

lemma foldl_add_map_sum (f : List Sample → ℚ) (base : ℚ) :
    ∀ l : List (List Sample),
      l.foldl (fun acc m => acc + f m) base = base + (l.map f).sum := by
  intro l
  induction l generalizing base with
  | nil => simp
  | cons m ms ih =>
    simp only [List.foldl_cons, List.map_cons, List.sum_cons, ih]
    ring

lemma catChannels_cons (a b : Sample) (r0 r1 : Batch) :
    catChannels (a :: r0) (b :: r1) = (a ++ b) :: catChannels r0 r1 := rfl

lemma zip3With_map_map (f : Sample → Sample → Sample → Sample)
    (g h : Sample → Sample) (b : Batch) :
    zip3With f b (b.map g) (b.map h) = b.map (fun s => f s (g s) (h s)) := by
  induction b with
  | nil => rfl
  | cons s rest ih => simp [zip3With, ih]

lemma hrInferOne_eq_map (net : SNet) (ds t : ℚ) (b : Batch) :
    hrInferOne net ds t b = b.map (hrInferSample net ds t) := by
  simp only [hrInferOne, interpBatch, calcFlowB, batchScale, List.map_map]
  rw [zip3With_map_map]
  rfl

/-! ### C3 -/

/-- **C3.** `convert` (the `filterAndStrip` of the spec) retains exactly the
keys containing `"module."` and none of the excluded fragments
(`"attn_mask"`, `"HW"`), deleting the `"module."` marker from each
retained key; in particular on
`{"module.foo.weight": t1, "bar.attn_mask": t2, "baz": t3}` it yields
exactly `{"foo.weight": t1}`. -/
theorem convert_filters_and_strips :
    (∀ (α : Type) (raw : SDict α) (k' : List Char) (v : α),
        (k', v) ∈ convert raw ↔
          ∃ k, (k, v) ∈ raw ∧ containsSub k moduleMarker = true ∧
            containsSub k attnMaskFrag = false ∧ containsSub k hwFrag = false ∧
            k' = replaceAll k moduleMarker []) ∧
    (∀ (α : Type) (t1 t2 t3 : α),
        convert [(("module.foo.weight").toList, t1),
                 (("bar.attn_mask").toList, t2),
                 (("baz").toList, t3)]
          = [(("foo.weight").toList, t1)]) := by
  constructor
  · intro α raw k' v
    simp only [convert, List.mem_map]
    constructor
    · rintro ⟨⟨k, w⟩, hmem, heq⟩
      rw [List.mem_filter] at hmem
      simp only [Bool.and_eq_true, Bool.not_eq_true'] at hmem
      obtain ⟨hraw, ⟨h1, h2⟩, h3⟩ := hmem
      injection heq with hk hv
      subst hv
      exact ⟨k, hraw, h1, h2, h3, hk.symm⟩
    · rintro ⟨k, hraw, h1, h2, h3, hk⟩
      refine ⟨⟨k, v⟩, ?_, ?_⟩
      · rw [List.mem_filter]
        simp only [Bool.and_eq_true, Bool.not_eq_true']
        exact ⟨hraw, ⟨h1, h2⟩, h3⟩
      · rw [hk]
  · intro α t1 t2 t3
    simp [convert, containsSub, leadsWith, moduleMarker, attnMaskFrag, hwFrag,
      replaceAll, replaceAllGo]

/-! ### C4 and C5 -/

/-- **C4.** `update(..., training=True)` returns the final prediction
together with the mean Laplacian loss of the final prediction plus one half
of the mean Laplacian loss of every intermediate merged prediction; it
zeroes the gradients, backpropagates that total loss, and takes exactly one
optimizer step. -/
theorem update_training_step (net : TrainNet) (st : TState) (imgs gt : Batch)
    (lr t : ℚ) :
    update net st imgs gt lr t true =
      (((net.fwd imgs t).2.2.2.1,
        mean (net.lap (net.fwd imgs t).2.2.2.1 gt)
          + (((net.fwd imgs t).2.2.1).map
              (fun m => mean (net.lap m gt) * (1/2))).sum),
       ⟨net.stepFn st.params, lr⟩,
       [Event.setLR lr, Event.modeTrain, Event.forwardGrad, Event.zeroGrad,
        Event.backward (mean (net.lap (net.fwd imgs t).2.2.2.1 gt)
          + (((net.fwd imgs t).2.2.1).map
              (fun m => mean (net.lap m gt) * (1/2))).sum),
        Event.optStep])
      ∧ ((update net st imgs gt lr t true).2.2).count Event.optStep = 1
      ∧ ((update net st imgs gt lr t true).2.2).count Event.zeroGrad = 1 := by
  refine ⟨?_, ?_, ?_⟩
  · simp [update, foldl_add_map_sum]
  · simp [update, List.count_cons]
  · simp [update, List.count_cons]

/-- **C5.** `update(..., training=False)` performs the forward pass with
gradients disabled, returns `(prediction, 0)`, and leaves every parameter
tensor untouched (its only state effect is the learning-rate write). -/
theorem update_eval_pure (net : TrainNet) (st : TState) (imgs gt : Batch)
    (lr t : ℚ) :
    update net st imgs gt lr t false =
      (((net.fwd imgs t).2.2.2.1, 0), ⟨st.params, lr⟩,
       [Event.setLR lr, Event.modeEval, Event.forwardNoGrad])
      ∧ ((update net st imgs gt lr t false).2.1).params = st.params
      ∧ Event.optStep ∉ (update net st imgs gt lr t false).2.2
      ∧ Event.backward ((update net st imgs gt lr t false).1.2)
          ∉ (update net st imgs gt lr t false).2.2
      ∧ Event.forwardNoGrad ∈ (update net st imgs gt lr t false).2.2 := by
  refine ⟨rfl, rfl, ?_, ?_, ?_⟩ <;> simp [update]

/-! ### C6 -/

/-- **C6.** Plain `hr_inference` (no TTA flags) is exactly the spec's
pipeline: downsample the concatenated pair by `down_scale`, compute flow
and mask on the downsampled input, upsample the flow and multiply its
magnitude by `1/down_scale`, upsample the mask unchanged in magnitude, and
feed the full-resolution pair with the upsampled fields into
warp-and-refine. -/
theorem hr_inference_plain_pipeline (net : SNet) (img0 img1 : Batch)
    (ds t : ℚ) :
    hr_inference net img0 img1 false ds t false
      = some (hrSpecPipeline net ds t img0 img1) := rfl

/-! ### C1 -/

/-- **C1 (amended).** On a batch of size one, the fast-TTA path of
`inference` and of `hr_inference` produces exactly the flip-averaged TTA
prediction (the leading dimension of both results being the singleton
batch). -/
theorem fast_TTA_eq_TTA_on_singleton_batch (net : SNet) (a b : Sample)
    (t ds : ℚ) :
    inference net [a] [b] false t true = inference net [a] [b] true t false
      ∧ hr_inference net [a] [b] false ds t true
          = hr_inference net [a] [b] true ds t false := by
  constructor
  · rfl
  · rfl

/-- **C1 (counterexample).** On a batch of size two the fast-TTA path does
not reproduce the flip-averaged TTA prediction: with the identity network
and the two 1×1 samples `0` and `2`, the fast path returns the single
sample `1` while the TTA path returns the two samples `0` and `2` — the
outputs differ in content, not merely by a leading singleton dimension. -/
theorem fast_TTA_ne_TTA_on_larger_batch :
    inference idNet [smp0, smp2] [smp0, smp2] false 0 true
        = some [[[[1]], [[1]]]]
      ∧ inference idNet [smp0, smp2] [smp0, smp2] true 0 false
          = some [[[[0]], [[0]]], [[[2]], [[2]]]]
      ∧ inference idNet [smp0, smp2] [smp0, smp2] false 0 true
          ≠ inference idNet [smp0, smp2] [smp0, smp2] true 0 false := by
  refine ⟨?_, ?_, ?_⟩ <;>
    simp [inference, idNet, smp0, smp2, catChannels, batchFlip, sampleFlip,
      gridFlip, predOf, sampleAvg, sampleZip, gridZip, batchAvg]

/-! ### C10 -/

/-- **C10.** The fast-TTA paths of `inference` and `hr_inference` always
return a batch of leading dimension exactly one, and on a batch of two or
more frame pairs the result consults only the first two outputs of the
forward pass on the concatenated double batch — the second of which is the
network's output for the second *original* sample, not for a flipped
counterpart, and all later batch elements are ignored. -/
theorem fast_TTA_leading_dim_one_first_two :
    (∀ (net : SNet) (a0 a1 : Sample) (r0 r1 : Batch) (TTA : Bool) (t ds : ℚ),
        (∃ v, inference net (a0 :: r0) (a1 :: r1) TTA t true = some [v])
          ∧ (∃ v, hr_inference net (a0 :: r0) (a1 :: r1) TTA ds t true
              = some [v]))
      ∧ (∀ (net : SNet) (a0 b0 a1 b1 : Sample) (r0 r1 : Batch) (TTA : Bool)
          (t : ℚ),
          inference net (a0 :: b0 :: r0) (a1 :: b1 :: r1) TTA t true
            = some [sampleAvg (predOf net t (a0 ++ a1))
                (sampleFlip (predOf net t (b0 ++ b1)))])
      ∧ (∀ (net : SNet) (a0 b0 a1 b1 : Sample) (r0 r1 : Batch) (TTA : Bool)
          (t ds : ℚ),
          hr_inference net (a0 :: b0 :: r0) (a1 :: b1 :: r1) TTA ds t true
            = some [sampleAvg (hrInferSample net ds t (a0 ++ a1))
                (sampleFlip (hrInferSample net ds t (b0 ++ b1)))]) := by
  refine ⟨?_, ?_, ?_⟩
  · intro net a0 a1 r0 r1 TTA t ds
    constructor
    · cases h : catChannels r0 r1 with
      | nil =>
        exact ⟨_, by simp [inference, catChannels_cons, h, batchFlip]; rfl⟩
      | cons x xs =>
        exact ⟨_, by simp [inference, catChannels_cons, h, batchFlip]; rfl⟩
    · cases h : catChannels r0 r1 with
      | nil =>
        exact ⟨_, by simp [hr_inference, catChannels_cons, h, batchFlip,
          hrInferOne_eq_map]; rfl⟩
      | cons x xs =>
        exact ⟨_, by simp [hr_inference, catChannels_cons, h, batchFlip,
          hrInferOne_eq_map]; rfl⟩
  · intro net a0 b0 a1 b1 r0 r1 TTA t
    simp [inference, catChannels_cons, batchFlip]
  · intro net a0 b0 a1 b1 r0 r1 TTA t ds
    simp [hr_inference, catChannels_cons, batchFlip, hrInferOne_eq_map]


/-! ### C2 -/

lemma load_state_dict_rel (sd : SDict ℚ) (net : NetP) :
    ∀ p ∈ load_state_dict sd net, ∃ q ∈ net,
      p.name = q.name ∧ (p.requiresGrad = q.requiresGrad ∨ p.requiresGrad = false) := by
  intro p hp
  simp only [load_state_dict, List.mem_map] at hp
  obtain ⟨q, hq, hfq⟩ := hp
  refine ⟨q, hq, ?_⟩
  cases hlk : List.lookup q.name sd with
  | some v =>
    rw [hlk] at hfq
    rw [← hfq]
    exact ⟨rfl, Or.inl rfl⟩
  | none =>
    rw [hlk] at hfq
    rw [← hfq]
    exact ⟨rfl, Or.inl rfl⟩

lemma setGradFalse_rel (br : List Char) (net : NetP) :
    ∀ p ∈ setGradFalse br net, ∃ q ∈ net,
      p.name = q.name ∧ (p.requiresGrad = q.requiresGrad ∨ p.requiresGrad = false) := by
  intro p hp
  simp only [setGradFalse, List.mem_map] at hp
  obtain ⟨q, hq, hfq⟩ := hp
  refine ⟨q, hq, ?_⟩
  by_cases h : leadsWith q.name br = true
  · rw [if_pos h] at hfq
    rw [← hfq]
    exact ⟨rfl, Or.inr rfl⟩
  · rw [if_neg h] at hfq
    rw [← hfq]
    exact ⟨rfl, Or.inl rfl⟩

lemma setGradFalse_freezes (br : List Char) (net : NetP) :
    ∀ p ∈ setGradFalse br net, leadsWith p.name br = true → p.requiresGrad = false := by
  intro p hp hname
  simp only [setGradFalse, List.mem_map] at hp
  obtain ⟨q, hq, hfq⟩ := hp
  by_cases h : leadsWith q.name br = true
  · rw [if_pos h] at hfq
    rw [← hfq]
  · rw [if_neg h] at hfq
    rw [← hfq] at hname
    exact absurd hname h

lemma load_model_rel (fs : FS) (net : NetP) (name : List Char) (rank : Int)
    (net' : NetP) (h : load_model fs net name rank = Except.ok net') :
    ∀ p ∈ net', ∃ q ∈ net,
      p.name = q.name ∧ (p.requiresGrad = q.requiresGrad ∨ p.requiresGrad = false) := by
  unfold load_model at h
  split at h
  · cases htl : torch_load fs (ckptPath name) with
    | ok ckpt =>
      rw [htl] at h
      cases h
      exact load_state_dict_rel _ _
    | error e =>
      rw [htl] at h
      cases h
  · cases h
    intro p hp
    exact ⟨p, hp, rfl, Or.inl rfl⟩

lemma grad_transfer {net net' : NetP}
    (hrel : ∀ p ∈ net', ∃ q ∈ net,
      p.name = q.name ∧ (p.requiresGrad = q.requiresGrad ∨ p.requiresGrad = false))
    (P : List Char → Bool)
    (h : ∀ p ∈ net, P p.name = true → p.requiresGrad = false) :
    ∀ p ∈ net', P p.name = true → p.requiresGrad = false := by
  intro p hp hP
  obtain ⟨q, hq, hn, hrg⟩ := hrel p hp
  cases hrg with
  | inl e => rw [e]; exact h q hq (hn ▸ hP)
  | inr e => exact e

/-- **C2.** Every parameter of a frozen branch (`gmflow`, `feature_bone`,
`block`, `unet`) has `requires_grad = false` after `Model` construction,
and still has it after any subsequent `load_model` call (loading a state
dict never touches the trainable flags). -/
theorem frozen_branches_stay_frozen (fs : FS) (net0 : NetP) (localRank : Int)
    (net : NetP) (h1 : initModel fs net0 localRank = Except.ok net) :
    (∀ p ∈ net, frozenBranch p.name = true → p.requiresGrad = false)
      ∧ (∀ (fs2 : FS) (name2 : List Char) (rank2 : Int) (net2 : NetP),
          load_model fs2 net name2 rank2 = Except.ok net2 →
            ∀ p ∈ net2, frozenBranch p.name = true → p.requiresGrad = false) := by
  have hcons : ∀ p ∈ net, frozenBranch p.name = true → p.requiresGrad = false := by
    unfold initModel at h1
    split at h1
    · cases h1
    · rename_i ckpt htl
      dsimp only [] at h1
      split at h1
      · cases h1
      · rename_i net3 hlm
        cases h1
        have hg2 : ∀ p ∈ setGradFalse gmflowMarker
            (load_state_dict
              ((gmflowPartial net0 ckpt.model).map
                (fun kv => (gmflowMarker ++ kv.1, kv.2))) net0),
            leadsWith p.name gmflowMarker = true → p.requiresGrad = false :=
          setGradFalse_freezes _ _
        have hg3 := grad_transfer (load_model_rel _ _ _ _ _ hlm)
          (fun n => leadsWith n gmflowMarker) hg2
        have hg4 := grad_transfer (setGradFalse_rel featureBoneMarker _)
          (fun n => leadsWith n gmflowMarker) hg3
        have hg5 := grad_transfer (setGradFalse_rel blockMarker _)
          (fun n => leadsWith n gmflowMarker) hg4
        have hg6 := grad_transfer (setGradFalse_rel unetMarker _)
          (fun n => leadsWith n gmflowMarker) hg5
        have hf4 : ∀ p ∈ setGradFalse featureBoneMarker net3,
            leadsWith p.name featureBoneMarker = true → p.requiresGrad = false :=
          setGradFalse_freezes _ _
        have hf5 := grad_transfer (setGradFalse_rel blockMarker _)
          (fun n => leadsWith n featureBoneMarker) hf4
        have hf6 := grad_transfer (setGradFalse_rel unetMarker _)
          (fun n => leadsWith n featureBoneMarker) hf5
        have hb5 : ∀ p ∈ setGradFalse blockMarker
            (setGradFalse featureBoneMarker net3),
            leadsWith p.name blockMarker = true → p.requiresGrad = false :=
          setGradFalse_freezes _ _
        have hb6 := grad_transfer (setGradFalse_rel unetMarker _)
          (fun n => leadsWith n blockMarker) hb5
        have hu6 : ∀ p ∈ setGradFalse unetMarker
            (setGradFalse blockMarker (setGradFalse featureBoneMarker net3)),
            leadsWith p.name unetMarker = true → p.requiresGrad = false :=
          setGradFalse_freezes _ _
        intro p hp hfb
        simp only [frozenBranch, Bool.or_eq_true] at hfb
        rcases hfb with ((hgm | hfbm) | hbm) | hum
        · exact hg6 p hp hgm
        · exact hf6 p hp hfbm
        · exact hb6 p hp hbm
        · exact hu6 p hp hum
  refine ⟨hcons, ?_⟩
  intro fs2 name2 rank2 net2 h2
  exact grad_transfer (load_model_rel _ _ _ _ _ h2) frozenBranch hcons

/-- **C2 witness.** Construction from the concrete file system `fsW`
produces `wNet1`; after a further `load_model` call, the concrete
`feature_bone` parameter still carries `requires_grad = false`. -/
theorem frozen_branches_stay_frozen_witness :
    (⟨("feature_bone.b").toList, 7, false⟩ : Param).requiresGrad = false :=
  (frozen_branches_stay_frozen fsW net0W 0 wNet1 (by rfl)).2
    fsW oursLocalName 0 wNet1 (by rfl)
    ⟨("feature_bone.b").toList, 7, false⟩ (by decide) (by decide)



/-! ### C9 -/

/-- **C9.** A missing required pretrained checkpoint is fatal: if the
GMFlow file is absent, construction propagates an `IOError`; if the
local-branch file is absent and the rank is the primary one, both
`load_model` itself and construction propagate an `IOError`.  No fallback
network is produced in either case. -/
theorem missing_ckpt_raises :
    (∀ (fs : FS) (net0 : NetP) (rank : Int),
        List.lookup gmflowCkptPath fs.files = none →
          initModel fs net0 rank = Except.error PyError.fileNotFound)
      ∧ (∀ (fs : FS) (net : NetP) (name : List Char) (rank : Int),
          rank ≤ 0 → List.lookup (ckptPath name) fs.files = none →
            load_model fs net name rank = Except.error PyError.fileNotFound)
      ∧ (∀ (fs : FS) (net0 : NetP) (rank : Int) (ckpt : Ckpt),
          List.lookup gmflowCkptPath fs.files = some ckpt → rank ≤ 0 →
            List.lookup (ckptPath oursLocalName) fs.files = none →
              initModel fs net0 rank = Except.error PyError.fileNotFound) := by
  have hlm : ∀ (fs : FS) (net : NetP) (name : List Char) (rank : Int),
      rank ≤ 0 → List.lookup (ckptPath name) fs.files = none →
        load_model fs net name rank = Except.error PyError.fileNotFound := by
    intro fs net name rank hr hnone
    unfold load_model
    rw [if_pos hr]
    unfold torch_load
    rw [hnone]
  refine ⟨?_, hlm, ?_⟩
  · intro fs net0 rank hnone
    unfold initModel torch_load
    rw [hnone]
  · intro fs net0 rank ckpt hsome hr hnone
    unfold initModel torch_load
    rw [hsome]
    dsimp only []
    rw [hlm fs _ oursLocalName rank hr hnone]

/-- **C9 witness.** On an empty file system, construction fails with the
file-not-found `IOError`. -/
theorem missing_ckpt_raises_witness :
    initModel ⟨[], []⟩ [] 0 = Except.error PyError.fileNotFound :=
  missing_ckpt_raises.1 ⟨[], []⟩ [] 0 rfl

/-! ### C8 -/

/-- **C8.** `save_model` is a no-op on any rank other than 0; on rank 0 it
creates the checkpoint directory idempotently, writes the record
`{epoch, model, optimizer}` to the primary path, and performs a second
write of an identically structured record to the distinct best-suffixed
sibling path exactly when `best` is true (the best path is untouched
otherwise). -/
theorem save_model_spec :
    (∀ (fs : FS) (name : List Char) (nsd osd : SDict ℚ) (rank : Int)
        (epoch : Nat) (best : Bool), rank ≠ 0 →
          save_model fs name nsd osd rank epoch best = (fs, []))
      ∧ (∀ (fs : FS) (name : List Char) (nsd osd : SDict ℚ) (epoch : Nat)
          (best : Bool),
          (save_model fs name nsd osd 0 epoch best).2
            = (ckptPath name, ⟨epoch, nsd, osd⟩)
                :: (if best then [(bestPath name, ⟨epoch, nsd, osd⟩)] else []))
      ∧ (∀ (fs : FS) (name : List Char) (nsd osd : SDict ℚ) (epoch : Nat)
          (best : Bool),
          List.lookup (ckptPath name)
              (save_model fs name nsd osd 0 epoch best).1.files
            = some ⟨epoch, nsd, osd⟩)
      ∧ (∀ (fs : FS) (name : List Char) (nsd osd : SDict ℚ) (epoch : Nat),
          List.lookup (bestPath name)
              (save_model fs name nsd osd 0 epoch true).1.files
            = some ⟨epoch, nsd, osd⟩
          ∧ List.lookup (bestPath name)
              (save_model fs name nsd osd 0 epoch false).1.files
            = List.lookup (bestPath name) fs.files)
      ∧ (∀ name : List Char, ckptPath name ≠ bestPath name)
      ∧ (∀ (fs : FS) (name : List Char) (nsd osd : SDict ℚ) (epoch : Nat)
          (best : Bool),
          logDir name ∈ (save_model fs name nsd osd 0 epoch best).1.dirs
          ∧ (save_model fs name nsd osd 0 epoch best).1.dirs
              = (if fs.dirs.contains (logDir name) then fs.dirs
                 else logDir name :: fs.dirs)) := by
  have hne : ∀ name : List Char, ckptPath name ≠ bestPath name := by
    intro name h
    have hlen := congrArg List.length h
    have l1 : (("log/").toList).length = 4 := rfl
    have l2 : (("/ckpt/").toList).length = 6 := rfl
    have l3 : ((".pkl").toList).length = 4 := rfl
    have l4 : (("_best.pkl").toList).length = 9 := rfl
    simp only [ckptPath, bestPath, List.length_append, l1, l2, l3, l4] at hlen
    omega
  have hdirs : ∀ (fs : FS) (d : List Char),
      (mkdirs fs d).dirs
        = (if fs.dirs.contains d then fs.dirs else d :: fs.dirs) := by
    intro fs d
    unfold mkdirs
    split <;> simp [*]
  have hfiles : ∀ (fs : FS) (d : List Char), (mkdirs fs d).files = fs.files := by
    intro fs d
    unfold mkdirs
    split <;> rfl
  refine ⟨?_, ?_, ?_, ?_, hne, ?_⟩
  · intro fs name nsd osd rank epoch best h
    unfold save_model
    rw [if_neg h]
  · intro fs name nsd osd epoch best
    cases best <;> simp [save_model]
  · intro fs name nsd osd epoch best
    have hkb : ((ckptPath name == bestPath name) : Bool) = false :=
      beq_eq_false_iff_ne.mpr (hne name)
    cases best <;> simp [save_model, writeFile, List.lookup, hkb]
  · intro fs name nsd osd epoch
    have hbk : ((bestPath name == ckptPath name) : Bool) = false :=
      beq_eq_false_iff_ne.mpr (Ne.symm (hne name))
    constructor <;> simp [save_model, writeFile, List.lookup, hbk, hfiles]
  · intro fs name nsd osd epoch best
    have hd : (save_model fs name nsd osd 0 epoch best).1.dirs
        = (mkdirs fs (logDir name)).dirs := by
      cases best <;> simp [save_model, writeFile]
    constructor
    · rw [hd, hdirs]
      by_cases hc : fs.dirs.contains (logDir name) = true
      · rw [if_pos hc]
        exact List.mem_of_elem_eq_true hc
      · rw [if_neg hc]
        exact List.mem_cons_self _ _
    · rw [hd, hdirs]

/-- **C8 witness.** On rank 1 a save call leaves the file system untouched
and performs no write. -/
theorem save_model_spec_witness :
    save_model ⟨[], []⟩ oursLocalName [] [] 1 3 true = (⟨[], []⟩, []) :=
  save_model_spec.1 ⟨[], []⟩ oursLocalName [] [] 1 3 true (by decide)



/-! ### C7 -/

lemma resize1D_one (v : List ℚ) : resize1D 1 v = v := by
  unfold resize1D
  have hn : ((⌊(v.length : ℚ) * 1⌋).toNat) = v.length := by
    rw [mul_one, Int.floor_natCast]
    exact Int.toNat_natCast _
  rw [hn]
  apply List.ext_getElem
  · simp
  · intro i h1 h2
    simp only [List.getElem_map, List.getElem_range]
    have hx : (((i : ℚ)) + 1/2) / 1 - 1/2 = (i : ℚ) := by ring
    rw [hx]
    unfold lin1D
    dsimp only
    have hi1 : (i : ℚ) ≤ (v.length : ℚ) - 1 := by
      have : (i : ℚ) + 1 ≤ (v.length : ℚ) := by exact_mod_cast h2
      linarith
    have hmin : min (i : ℚ) ((v.length : ℚ) - 1) = (i : ℚ) := min_eq_left hi1
    have hmax : max 0 (i : ℚ) = (i : ℚ) := max_eq_right (by positivity)
    rw [hmin, hmax]
    have hfl : ((⌊(i : ℚ)⌋).toNat) = i := by
      rw [Int.floor_natCast]
      exact Int.toNat_natCast _
    rw [hfl, sub_self]
    rw [List.getD_eq_getElem v 0 h2]
    ring

lemma rowLerp_zero (a b : List ℚ) (h : a.length ≤ b.length) :
    rowLerp 0 a b = a := by
  induction a generalizing b with
  | nil => rfl
  | cons x xs ih =>
    cases b with
    | nil => simp at h
    | cons y ys =>
      simp only [List.length_cons, Nat.succ_le_succ_iff] at h
      unfold rowLerp at ih ⊢
      rw [List.zipWith_cons_cons, ih ys h]
      congr 1
      ring

lemma resizeRows_one (g : Grid) (hrect : IsRect g) : resizeRows 1 g = g := by
  unfold resizeRows
  have hn : ((⌊(g.length : ℚ) * 1⌋).toNat) = g.length := by
    rw [mul_one, Int.floor_natCast]
    exact Int.toNat_natCast _
  rw [hn]
  apply List.ext_getElem
  · simp
  · intro i h1 h2
    simp only [List.getElem_map, List.getElem_range]
    have hx : (((i : ℚ)) + 1/2) / 1 - 1/2 = (i : ℚ) := by ring
    rw [hx]
    have hi1 : (i : ℚ) ≤ (g.length : ℚ) - 1 := by
      have : (i : ℚ) + 1 ≤ (g.length : ℚ) := by exact_mod_cast h2
      linarith
    have hmin : min (i : ℚ) ((g.length : ℚ) - 1) = (i : ℚ) := min_eq_left hi1
    have hmax : max 0 (i : ℚ) = (i : ℚ) := max_eq_right (by positivity)
    rw [hmin, hmax]
    have hfl : ((⌊(i : ℚ)⌋).toNat) = i := by
      rw [Int.floor_natCast]
      exact Int.toNat_natCast _
    rw [hfl, sub_self]
    have hx1 : min (i + 1) (g.length - 1) < g.length := by omega
    rw [List.getD_eq_getElem g [] h2, List.getD_eq_getElem g [] hx1]
    rw [rowLerp_zero _ _
      (le_of_eq (hrect _ (List.getElem_mem h2) _ (List.getElem_mem hx1)))]

lemma interpGrid_one (g : Grid) (hrect : IsRect g) : interpGrid 1 g = g := by
  unfold interpGrid
  have hmap : g.map (resize1D 1) = g := by
    have h1 : g.map (resize1D 1) = g.map id :=
      List.map_congr_left (fun v _ => resize1D_one v)
    rw [h1, List.map_id]
  rw [hmap]
  exact resizeRows_one g hrect

lemma interpSample_one (s : Sample) (h : SampleRect s) :
    interpSample 1 s = s := by
  unfold interpSample
  have h1 : s.map (interpGrid 1) = s.map id :=
    List.map_congr_left (fun g hg => interpGrid_one g (h g hg))
  rw [h1, List.map_id]

lemma interpBatch_one (b : Batch) (h : ∀ s ∈ b, SampleRect s) :
    interpBatch 1 b = b := by
  unfold interpBatch
  have h1 : b.map (interpSample 1) = b.map id :=
    List.map_congr_left (fun s hs => interpSample_one s (h s hs))
  rw [h1, List.map_id]

lemma sampleScale_one (s : Sample) : sampleScale 1 s = s := by
  simp [sampleScale]

lemma batchScale_one (b : Batch) : batchScale 1 b = b := by
  unfold batchScale
  have h1 : b.map (sampleScale 1) = b.map id :=
    List.map_congr_left (fun s _ => sampleScale_one s)
  rw [h1, List.map_id]

/-- **C7.** With `down_scale = 1.0` and rectangular tensors, the plain
`hr_inference` path coincides exactly with direct full-resolution inference
(`calculate_flow` on the full-resolution concatenated pair followed by
warp-and-refine): bilinear resampling at scale factor 1 with
`align_corners=False` is the identity in exact arithmetic, and the flow
magnitude is multiplied by `1/1 = 1`. -/
theorem hr_inference_downscale_one_identity (net : SNet) (img0 img1 : Batch)
    (t : ℚ)
    (h1 : ∀ s ∈ catChannels img0 img1, SampleRect s)
    (h2 : ∀ s ∈ catChannels img0 img1, SampleRect (net.calculate_flow s t).1)
    (h3 : ∀ s ∈ catChannels img0 img1, SampleRect (net.calculate_flow s t).2) :
    hr_inference net img0 img1 false 1 t false
      = some (directInfer net t (catChannels img0 img1)) := by
  have hstep : hr_inference net img0 img1 false 1 t false
      = some (hrInferOne net 1 t (catChannels img0 img1)) := rfl
  rw [hstep]
  congr 1
  simp only [hrInferOne, directInfer]
  have hone : (1 : ℚ) / 1 = 1 := by norm_num
  rw [hone, interpBatch_one _ h1]
  have hf : ∀ s ∈ (calcFlowB net (catChannels img0 img1) t).1, SampleRect s := by
    intro s hs
    simp only [calcFlowB, List.mem_map] at hs
    obtain ⟨q, hq, rfl⟩ := hs
    exact h2 q hq
  have hm : ∀ s ∈ (calcFlowB net (catChannels img0 img1) t).2, SampleRect s := by
    intro s hs
    simp only [calcFlowB, List.mem_map] at hs
    obtain ⟨q, hq, rfl⟩ := hs
    exact h3 q hq
  rw [interpBatch_one _ hf, interpBatch_one _ hm, batchScale_one]

/-- **C7 witness.** On a concrete rectangular 2×2 frame pair and the
identity network, `hr_inference` at `down_scale = 1` equals direct
inference. -/
theorem hr_inference_downscale_one_identity_witness :
    hr_inference idNet [smpR] [smpR] false 1 0 false
      = some (directInfer idNet 0 (catChannels [smpR] [smpR])) :=
  hr_inference_downscale_one_identity idNet [smpR] [smpR] 0
    (by decide) (by decide) (by decide)


end SGMVFI
